import Mathlib

/-!
Verification of the maker-checker workflow orchestration core
(`src/lib/langgraph`, `src/lib/manus`, `src/lib/checker`, the workflow
store and the HTTP routes) against its natural-language specification.

The TypeScript sources are shallowly embedded: JavaScript numbers that
carry confidences and thresholds become `Rat`, strings stay `String`
(URLs handled by character-level reasoning use `List Char`), nullable
values become `Option`, and the JavaScript truthiness tests that the
code performs on strings are made explicit.  External service calls
(the Manus generation API and the Claude review API) are modelled as
oracle inputs threaded through the state machine, exactly as their
results flow through the nodes.
-/

namespace ProcessGen

/-- JavaScript truthiness of a nullable string (`null`/`undefined` and
the empty string are falsy). -/
def jsTruthyStr : Option String → Bool
  | none => false
  | some s => !s.isEmpty

/-- Character-level model of `String.prototype.trim`: strip leading and
trailing whitespace. -/
def charTrim (s : String) : String :=
  ⟨((s.data.dropWhile Char.isWhitespace).reverse.dropWhile Char.isWhitespace).reverse⟩

/-- `true` when `s.trim()` is the empty string (so `!s.trim()` holds in JS). -/
def trimIsEmpty (s : String) : Bool :=
  s.data.all Char.isWhitespace

/-! ## Data model (`src/types/index.ts`, `src/unnamed/part_018`) -/

/-- `UploadedFile` from `src/types/index.ts` (the `Date` field is modelled
as a numeric timestamp). -/
structure UploadedFile where
  id : String
  name : String
  size : Nat
  type : String
  url : String
  uploadedAt : Nat
deriving DecidableEq, Repr

/-- `IterationRecord` from `src/types/index.ts`. -/
structure IterationRecord where
  iteration : Nat
  timestamp : Nat
  makerDuration : Nat
  checkerDuration : Nat
  outputFileId : String
  outputFileUrl : String
  thumbnailUrls : List String
  passed : Bool
  confidence : Rat
  feedback : String
  issues : List String
deriving DecidableEq, Repr

/-- The LangGraph workflow state (`src/unnamed/part_018`). -/
structure WorkflowState where
  runId : String
  inputFiles : List UploadedFile
  makerPrompt : String
  checkerPrompt : String
  guidelines : String
  sampleFiles : List UploadedFile
  maxIterations : Nat
  confidenceThreshold : Rat
  autoStopOnPass : Bool
  currentIteration : Nat
  currentOutput : Option UploadedFile
  currentOutputPdf : Option UploadedFile
  currentThumbnails : List String
  feedback : Option String
  manusTaskId : Option String
  lastOutputSignature : Option String
  iterationHistory : List IterationRecord
  finalOutput : Option UploadedFile
  success : Bool
  shouldStop : Bool
  errorMessage : Option String
deriving DecidableEq, Repr

/-- The immutable per-run inputs (`StartWorkflowParams` in
`src/lib/langgraph/service.ts` / `WorkflowInput` in the workflow module). -/
structure WorkflowInput where
  runId : String
  inputFiles : List UploadedFile
  makerPrompt : String
  checkerPrompt : String
  guidelines : String
  sampleFiles : List UploadedFile
  maxIterations : Nat
  confidenceThreshold : Rat
  autoStopOnPass : Bool
deriving DecidableEq, Repr

/-- `createInitialState` from `src/unnamed/part_018`. -/
def createInitialState (p : WorkflowInput) : WorkflowState :=
  { runId := p.runId
    inputFiles := p.inputFiles
    makerPrompt := p.makerPrompt
    checkerPrompt := p.checkerPrompt
    guidelines := p.guidelines
    sampleFiles := p.sampleFiles
    maxIterations := p.maxIterations
    confidenceThreshold := p.confidenceThreshold
    autoStopOnPass := p.autoStopOnPass
    currentIteration := 0
    currentOutput := none
    currentOutputPdf := none
    currentThumbnails := []
    feedback := none
    manusTaskId := none
    lastOutputSignature := none
    iterationHistory := []
    finalOutput := none
    success := false
    shouldStop := false
    errorMessage := none }

/-! ## Maker node (`src/lib/langgraph/nodes/maker.ts`) -/

/-- The result of `client.generatePresentation` (`ManusGenerateResult` in
`src/lib/manus/types.ts`), an oracle input to the maker node. -/
structure ManusGenerateResult where
  taskId : String
  taskUrl : String
  outputUrl : String
  filename : String
  pdfUrl : Option String
  pdfFilename : Option String
  outputSignature : Option String
deriving DecidableEq, Repr

/-- `buildMakerPrompt`: the first-iteration prompt is the base prompt,
with the trimmed guidelines appended when they are non-blank. -/
def buildMakerPrompt (basePrompt : String) (guidelines : String) : String :=
  if trimIsEmpty guidelines then basePrompt
  else basePrompt ++ "\n\n## Written Guidelines\n\n" ++ charTrim guidelines

/-- `buildFeedbackOnlyPrompt` from `src/lib/langgraph/nodes/maker.ts`. -/
def buildFeedbackOnlyPrompt (feedback : String) : String :=
  "##  Feedback to Address\n\n" ++ feedback ++ "\n\nPlease apply ONLY these fixes in this new version."

/-- The prompt the maker node sends to the generation service:
`hasFeedback = state.currentIteration > 0 && !!state.feedback` selects
the feedback-only prompt, otherwise the full maker prompt is used. -/
def makerPromptSent (s : WorkflowState) : String :=
  if (decide (0 < s.currentIteration) && jsTruthyStr s.feedback) = true then
    buildFeedbackOnlyPrompt (s.feedback.getD "")
  else
    buildMakerPrompt s.makerPrompt s.guidelines

/-- `createOutputFile` from the maker node (`uuid` and the clock are
oracle inputs). -/
def createOutputFile (freshId : String) (url : String) (filename : String)
    (iteration : Nat) (mimeType : String) (now : Nat) : UploadedFile :=
  { id := freshId
    name := if filename.isEmpty then "iteration_" ++ toString iteration ++ "_output.pptx" else filename
    size := 0
    type := mimeType
    url := url
    uploadedAt := now }

/-- The default PPTX mime type used by `createOutputFile`. -/
def pptxMime : String :=
  "application/vnd.openxmlformats-officedocument.presentationml.presentation"

/-- Oracle data for one maker step: the generation result plus the
fresh identifiers and timestamps the node draws from its environment. -/
structure MakerOracle where
  gen : ManusGenerateResult
  outputFileId : String
  pdfFileId : String
  now : Nat
deriving DecidableEq, Repr

/-- The maker node's state update (`src/lib/langgraph/nodes/maker.ts`),
merged into the LangGraph state: every touched field overwrites.  The
iteration number becomes `currentIteration + 1`; the task handle keeps
the existing id when one is set (`state.manusTaskId || result.taskId`);
the fingerprint is `result.outputSignature || null`. -/
def makerApply (s : WorkflowState) (o : MakerOracle) : WorkflowState :=
  let iteration := s.currentIteration + 1
  let outputFile := createOutputFile o.outputFileId o.gen.outputUrl o.gen.filename iteration pptxMime o.now
  let outputPdf :=
    if jsTruthyStr o.gen.pdfUrl then
      some (createOutputFile o.pdfFileId (o.gen.pdfUrl.getD "") (o.gen.pdfFilename.getD "presentation.pdf")
        iteration "application/pdf" o.now)
    else none
  { s with
    currentIteration := iteration
    currentOutput := some outputFile
    currentOutputPdf := outputPdf
    currentThumbnails := []
    manusTaskId := some (if jsTruthyStr s.manusTaskId then s.manusTaskId.getD "" else o.gen.taskId)
    lastOutputSignature := if jsTruthyStr o.gen.outputSignature then o.gen.outputSignature else none }

/-! ## Checker node (`src/lib/langgraph/nodes/checker.ts`) -/

/-- The verdict returned by the review client (`CheckerReviewResult` in
`src/lib/checker/types.ts`); also the checker node's oracle input. -/
structure CheckerReviewResult where
  passed : Bool
  confidence : Rat
  feedback : String
  issues : List String
deriving DecidableEq, Repr

/-- `formatFeedbackForMaker`: the verdict feedback followed by a
numbered list of issues, joined with newlines. -/
def formatFeedbackForMaker (r : CheckerReviewResult) : String :=
  let parts := [r.feedback] ++
    (if r.issues.isEmpty then []
     else ["\nSpecific issues to address:"] ++ (r.issues.enum.map fun p => toString (p.1 + 1) ++ ". " ++ p.2))
  String.intercalate "\n" parts

/-- `determineShouldStop`: stop when the verdict passed with confidence
at or above the threshold and auto-stop is enabled, or when the
iteration count reached `maxIterations`. -/
def determineShouldStop (s : WorkflowState) (passed : Bool) (confidence : Rat) : Bool :=
  if passed && decide (s.confidenceThreshold ≤ confidence) && s.autoStopOnPass then true
  else if s.maxIterations ≤ s.currentIteration then true
  else false

/-- Oracle data for one checker step: the review verdict plus the
durations and timestamps drawn from the clock. -/
structure CheckerOracle where
  verdict : CheckerReviewResult
  duration : Nat
  now : Nat
deriving DecidableEq, Repr

/-- The checker node's state update.  It throws (`none`) when there is
no current output; otherwise it appends exactly one `IterationRecord`
for the current iteration (the `iterationHistory` annotation reducer
concatenates updates), stores the next-iteration feedback (`null` on a
pass), and writes `shouldStop`, `success` and `finalOutput`. -/
def checkerApply (s : WorkflowState) (o : CheckerOracle) : Option WorkflowState :=
  match s.currentOutput with
  | none => none
  | some out =>
    let record : IterationRecord :=
      { iteration := s.currentIteration
        timestamp := o.now
        makerDuration := 0
        checkerDuration := o.duration
        outputFileId := out.id
        outputFileUrl := out.url
        thumbnailUrls := s.currentThumbnails
        passed := o.verdict.passed
        confidence := o.verdict.confidence
        feedback := o.verdict.feedback
        issues := o.verdict.issues }
    let stop := determineShouldStop s o.verdict.passed o.verdict.confidence
    some { s with
      iterationHistory := s.iterationHistory ++ [record]
      feedback := if o.verdict.passed then none else some (formatFeedbackForMaker o.verdict)
      shouldStop := stop
      success := o.verdict.passed && decide (s.confidenceThreshold ≤ o.verdict.confidence)
      finalOutput := if stop then s.currentOutput else none }

/-! ## Engine loop and event stream
(`runWorkflowWithCallbacks` in the workflow module, `executeWorkflow` in
`src/lib/langgraph/service.ts`) -/

/-- Oracle data for one full iteration (maker call followed by checker
call). -/
structure StepOracle where
  maker : MakerOracle
  checker : CheckerOracle
deriving DecidableEq, Repr

/-- The SSE-level lifecycle events emitted through the callbacks in
`src/lib/langgraph/service.ts`. -/
inductive WorkflowEvent where
  | iterationStart (iteration : Nat)
  | makerComplete (iteration : Nat) (timestamp : Nat) (outputFileId outputFileUrl : String)
      (thumbnailUrls : List String)
  | checkerComplete (iteration : Nat) (passed : Bool) (confidence : Rat) (feedback : String)
      (issues : List String)
  | workflowComplete (success : Bool) (totalIterations : Nat)
      (finalOutputFileId finalOutputFileUrl : String)
  | errorEvent (message : String) (iteration : Nat)
deriving DecidableEq, Repr

/-- A finished run, a run aborted by a checker precondition failure
(the thrown error propagates out of the stream loop after the `error`
callback fired), or a run on which the oracle of external responses ran
out while the loop still wanted to continue. -/
inductive RunOutcome where
  | finished (final : WorkflowState) (events : List WorkflowEvent)
  | errored (state : WorkflowState) (events : List WorkflowEvent)
  | outOfOracle (state : WorkflowState) (events : List WorkflowEvent)
deriving DecidableEq, Repr

/-- The `workflow_complete` event built by `onWorkflowComplete`
(`finalOutput?.id || ''` and `finalOutput?.url || ''`). -/
def workflowCompleteEvent (s : WorkflowState) : WorkflowEvent :=
  .workflowComplete s.success s.currentIteration
    ((s.finalOutput.map (·.id)).getD "") ((s.finalOutput.map (·.url)).getD "")

/-- One pass of the compiled graph: maker node, then checker node, then
the conditional edge `routeAfterChecker` (`END` when `shouldStop`).  The
callback wiring of `runWorkflowWithCallbacks` emits `iteration_start`
when `currentIteration` increases (which happens exactly at the maker
step), `maker_complete` after each maker event and `checker_complete`
with the freshly appended record after each checker event. -/
def runLoop : List StepOracle → WorkflowState → List WorkflowEvent → RunOutcome
  | [], s, evs => .outOfOracle s evs
  | o :: rest, s, evs =>
    let s1 := makerApply s o.maker
    let evs1 := evs ++
      [.iterationStart s1.currentIteration,
       .makerComplete s1.currentIteration o.maker.now
         ((s1.currentOutput.map (·.id)).getD "") ((s1.currentOutput.map (·.url)).getD "")
         s1.currentThumbnails]
    match checkerApply s1 o.checker with
    | none => .errored s1 (evs1 ++ [.errorEvent "No output to check" s1.currentIteration])
    | some s2 =>
      let evs2 := evs1 ++
        [.checkerComplete s2.currentIteration o.checker.verdict.passed o.checker.verdict.confidence
          o.checker.verdict.feedback o.checker.verdict.issues]
      if s2.shouldStop then .finished s2 (evs2 ++ [workflowCompleteEvent s2])
      else runLoop rest s2 evs2

/-- `runWorkflowWithCallbacks`: compile the graph, start from the
initial state and stream node events, emitting callbacks. -/
def runWorkflowWithCallbacks (input : WorkflowInput) (oracle : List StepOracle) : RunOutcome :=
  runLoop oracle (createInitialState input) []

/-- `executeWorkflow` from `src/lib/langgraph/service.ts`.  Its
signature takes the externally-supplied cancellation predicate
`shouldStop`, but the body only builds the event callbacks and calls
`runWorkflowWithCallbacks`; the predicate is never consulted. -/
def executeWorkflow (input : WorkflowInput) (oracle : List StepOracle)
    (_shouldStop : Nat → Bool) : RunOutcome :=
  runWorkflowWithCallbacks input oracle

/-- The events an outcome carries. -/
def outcomeEvents : RunOutcome → List WorkflowEvent
  | .finished _ evs => evs
  | .errored _ evs => evs
  | .outOfOracle _ evs => evs

/-- The terminal state of a finished run. -/
def finalStateOf : RunOutcome → Option WorkflowState
  | .finished s _ => some s
  | _ => none

/-- The states of a run observable right after a checker step completed:
the first checker completion from the initial state, and every later
checker completion reached while the previous one decided to continue. -/
inductive PostCheckerReachable (p : WorkflowInput) : WorkflowState → Prop where
  | first (o : StepOracle) (s2 : WorkflowState)
      (h : checkerApply (makerApply (createInitialState p) o.maker) o.checker = some s2) :
      PostCheckerReachable p s2
  | step (s : WorkflowState) (o : StepOracle) (s2 : WorkflowState)
      (hs : PostCheckerReachable p s) (hcont : s.shouldStop = false)
      (h : checkerApply (makerApply s o.maker) o.checker = some s2) :
      PostCheckerReachable p s2

/-! ## Review client response parsing (`src/lib/checker/client.ts`) -/

/-- JSON values, the result of `JSON.parse` on the extracted substring
(numbers as rationals). -/
inductive JValue where
  | null
  | bool (b : Bool)
  | num (q : Rat)
  | str (s : String)
  | arr (elems : List JValue)
  | obj (fields : List (String × JValue))

/-- Property lookup on a parsed JSON object. -/
def jLookup (fields : List (String × JValue)) (k : String) : Option JValue :=
  (fields.find? fun p => p.1 = k).map (·.2)

/-- `clamp` from `src/lib/checker/client.ts`:
`Math.min(Math.max(value, min), max)`. -/
def clamp (value lo hi : Rat) : Rat :=
  min (max value lo) hi

/-- Keep only the string elements of a JSON array
(`result.issues.filter((i) => typeof i === 'string')`). -/
def stringElems (elems : List JValue) : List String :=
  elems.filterMap fun v => match v with
    | .str s => some s
    | _ => none

/-- `validateCheckerResult`: coerce the parsed object's fields with the
explicit defaults of `src/lib/checker/client.ts:355-364`. -/
def validateCheckerResult (fields : List (String × JValue)) : CheckerReviewResult :=
  { passed :=
      match jLookup fields "passed" with
      | some (.bool b) => b
      | _ => false
    confidence :=
      match jLookup fields "confidence" with
      | some (.num q) => clamp q 0 1
      | _ => 0
    feedback :=
      match jLookup fields "feedback" with
      | some (.str s) => s
      | _ => "No feedback provided"
    issues :=
      match jLookup fields "issues" with
      | some (.arr xs) => stringElems xs
      | _ => [] }

/-- The substring matched by the greedy regex `/\{[\s\S]*\}/` in
`parseJsonResponse`: everything from the first `{` through the last `}`
of the text (`none` when no `}` follows a `{`). -/
def extractBraced (cs : List Char) : Option (List Char) :=
  let fromBrace := cs.dropWhile (· ≠ '{')
  let upToClose := (fromBrace.reverse.dropWhile (· ≠ '}')).reverse
  if upToClose.isEmpty then none else some upToClose

/-- Modelled from the spec: the spec describes the extraction step of
`parseJsonResponse` as taking "the first balanced `{...}` substring" of
the response text; the repository has no such extractor, so this walks
from the first `{` with a nesting counter and stops at the brace that
balances it.  Used only to compare the spec's description with
`extractBraced`, the embedding of the code's regex. -/
def balancedScan : List Char → Nat → List Char → Option (List Char)
  | [], _, _ => none
  | c :: rest, depth, acc =>
    if c = '{' then balancedScan rest (depth + 1) (acc ++ [c])
    else if c = '}' then
      if depth ≤ 1 then some (acc ++ [c])
      else balancedScan rest (depth - 1) (acc ++ [c])
    else balancedScan rest depth (acc ++ [c])

/-- Modelled from the spec: the first balanced `{...}` substring of the
text (see `balancedScan`). -/
def firstBalancedBraced (cs : List Char) : Option (List Char) :=
  balancedScan (cs.dropWhile (· ≠ '{')) 0 []

/-! ## Manus client (`src/lib/manus/client.ts`) -/

/-- Output-artifact URLs, handled at the character level. -/
abbrev Url := List Char

/-- One entry of `task.output[i].content` (only the fields the
fingerprint logic reads). -/
structure ManusOutputContent where
  fileUrl : Option Url
  fileName : Option String
  mimeType : Option String
deriving DecidableEq, Repr

/-- One entry of `task.output`. -/
structure ManusOutputItem where
  content : Option (List ManusOutputContent)
deriving DecidableEq, Repr

/-- One entry of the legacy `task.outputs` array. -/
structure ManusLegacyOutput where
  url : Option Url
  filename : Option String
  mimeType : Option String
deriving DecidableEq, Repr

/-- A Manus task lookup response (the fields read by the polling and
fingerprint logic; `status` is the raw status string). -/
structure ManusTaskResponse where
  id : Option String
  status : String
  output : Option (List ManusOutputItem)
  outputs : Option (List ManusLegacyOutput)
deriving DecidableEq, Repr

/-- The URL list collected by `buildOutputSignature`: every truthy
`content.fileUrl` of `task.output[].content[]`, then every truthy
`output.url` of the legacy `task.outputs[]`, in encounter order. -/
def collectSignatureUrls (t : ManusTaskResponse) : List Url :=
  ((t.output.getD []).flatMap fun item =>
    (item.content.getD []).filterMap fun c =>
      match c.fileUrl with
      | some u => if u.isEmpty then none else some u
      | none => none)
  ++ ((t.outputs.getD []).filterMap fun o =>
      match o.url with
      | some u => if u.isEmpty then none else some u
      | none => none)

/-- `Array.prototype.join('|')` on a list of URLs. -/
def joinPipe : List Url → Url
  | [] => []
  | [u] => u
  | u :: v :: rest => u ++ '|' :: joinPipe (v :: rest)

/-- The fingerprint of a sorted URL list (`urls.sort().join('|')`). -/
def signatureOfUrls (urls : List Url) : Url :=
  joinPipe urls.mergeSort

/-- `buildOutputSignature`: `null` when no URL was collected, otherwise
the sorted URLs joined with `|`. -/
def buildOutputSignature (t : ManusTaskResponse) : Option Url :=
  let urls := collectSignatureUrls t
  if urls.isEmpty then none else some (signatureOfUrls urls)

/-- One observation of the polling loop in `waitForTaskWithNewOutput`:
what `getTask` produced on that attempt. -/
inductive PollObs where
  | notFound
  | apiError (msg : String)
  | ok (t : ManusTaskResponse)
deriving DecidableEq, Repr

/-- How a run of the polling loop ends. -/
inductive WaitResult where
  | success (t : ManusTaskResponse)
  | taskFailed
  | notFoundFatal
  | apiError (msg : String)
  | stillPolling
deriving DecidableEq, Repr

/-- `maxNotFoundRetries` from `src/lib/manus/client.ts:125`. -/
def maxNotFoundRetries : Nat := 5

/-- The `while (true)` polling loop of `waitForTaskWithNewOutput`, run
against a finite list of observations; `notFoundRetries` counts the
consecutive 404s (the counter resets on every successful fetch).  A
`completed` status returns immediately when no previous fingerprint was
supplied, and otherwise only once a truthy fingerprint differs from the
previous one.  `stillPolling` means every observation was consumed and
the loop was about to poll again. -/
def waitForTaskWithNewOutput : List PollObs → Nat → Option Url → WaitResult
  | [], _, _ => .stillPolling
  | .notFound :: rest, notFoundRetries, prev =>
    if maxNotFoundRetries ≤ notFoundRetries + 1 then .notFoundFatal
    else waitForTaskWithNewOutput rest (notFoundRetries + 1) prev
  | .apiError msg :: _, _, _ => .apiError msg
  | .ok t :: rest, _, prev =>
    if t.status = "failed" then .taskFailed
    else if t.status = "completed" then
      match prev with
      | none => .success t
      | some p =>
        if p.isEmpty then .success t
        else
          match buildOutputSignature t with
          | some sig => if !sig.isEmpty && sig ≠ p then .success t else waitForTaskWithNewOutput rest 0 prev
          | none => waitForTaskWithNewOutput rest 0 prev
    else waitForTaskWithNewOutput rest 0 prev

/-! ## Run registry and HTTP control plane
(`src/unnamed/part_000`, `src/app/api/workflow/stop/[runId]/route.ts`,
`src/app/api/workflow/status/[runId]/route.ts`, and the submission
endpoint embedded in `src/lib/thumbnails/types.ts`) -/

/-- The per-run configuration triple (`WorkflowConfig` in
`src/types/index.ts`). -/
structure StartWorkflowConfig where
  maxIterations : Nat
  confidenceThreshold : Rat
  autoStopOnPass : Bool
deriving DecidableEq, Repr

/-- `WorkflowStartRequest` from `src/types/index.ts`. -/
structure WorkflowStartRequest where
  fileIds : List String
  makerPrompt : String
  checkerPrompt : String
  guidelines : String
  sampleFileIds : List String
  config : StartWorkflowConfig
deriving DecidableEq, Repr

/-- Run statuses (`'running' | 'stopped' | 'completed' | 'failed'`). -/
inductive RunStatus where
  | running
  | stopped
  | completed
  | failed
deriving DecidableEq, Repr

/-- A status other than `running` is terminal. -/
def RunStatus.isTerminal : RunStatus → Bool
  | .running => false
  | _ => true

/-- `StoredWorkflow` from the workflow store. -/
structure StoredWorkflow where
  request : WorkflowStartRequest
  status : RunStatus
  shouldStop : Bool
deriving DecidableEq, Repr

/-- The stop route's update on an existing record:
`setWorkflowShouldStop(runId, true)` then
`updateWorkflowStatus(runId, 'stopped')`. -/
def stopRouteUpdate (w : StoredWorkflow) : StoredWorkflow :=
  { w with shouldStop := true, status := .stopped }

/-- The status stream's teardown on normal completion:
`updateWorkflowStatus(runId, 'completed')`. -/
def streamCompleteUpdate (w : StoredWorkflow) : StoredWorkflow :=
  { w with status := .completed }

/-- The status stream's teardown on error:
`updateWorkflowStatus(runId, 'failed')`. -/
def streamFailUpdate (w : StoredWorkflow) : StoredWorkflow :=
  { w with status := .failed }

/-- The operations the two routes perform on one run's record. -/
inductive RegistryOp where
  | stop
  | streamComplete
  | streamFail
deriving DecidableEq, Repr

/-- Apply one route operation to a run's record.  `getWorkflow`
returning `null` makes every update a no-op (the stop route then
answers 404). -/
def applyOp (w : Option StoredWorkflow) (op : RegistryOp) : Option StoredWorkflow :=
  match w, op with
  | none, _ => none
  | some w, .stop => some (stopRouteUpdate w)
  | some w, .streamComplete => some (streamCompleteUpdate w)
  | some w, .streamFail => some (streamFailUpdate w)

/-- Apply a sequence of route operations. -/
def applyOps (w : Option StoredWorkflow) (ops : List RegistryOp) : Option StoredWorkflow :=
  ops.foldl applyOp w

/-- The submission endpoint's response. -/
inductive StartPostResponse where
  | badRequest (error : String)
  | ok (runId : String) (status : String)
deriving DecidableEq, Repr

/-- The run-submission `POST` handler: validate, then store the run
record with `status = running, shouldStop = false` and answer
`{ runId, status: 'started' }` (the fresh `uuid` is an oracle input). -/
def startPost (body : WorkflowStartRequest) (freshRunId : String)
    (store : List (String × StoredWorkflow)) :
    StartPostResponse × List (String × StoredWorkflow) :=
  if body.fileIds.isEmpty then (.badRequest "No input files provided", store)
  else if trimIsEmpty body.makerPrompt then (.badRequest "Maker prompt is required", store)
  else if trimIsEmpty body.checkerPrompt then (.badRequest "Checker prompt is required", store)
  else (.ok freshRunId "started",
    (freshRunId, { request := body, status := .running, shouldStop := false }) :: store)

/-! ## File registry (`src/lib/storage/registry.ts`) -/

/-- A JavaScript value as seen by the `getFiles` filter: `Map.get`
yields the file or `undefined`, and the filter compares against
`null` with strict inequality. -/
inductive JsFileVal where
  | jsUndefined
  | null
  | file (f : UploadedFile)
deriving DecidableEq, Repr

/-- `fileRegistry.get(id)`: the registered file, or `undefined`. -/
def registryGet (reg : List (String × UploadedFile)) (fileId : String) : JsFileVal :=
  match reg.find? fun p => p.1 = fileId with
  | some p => .file p.2
  | none => .jsUndefined

/-- `getFiles`: map each id through the registry, then keep the values
that are not strictly equal to `null`. -/
def getFiles (reg : List (String × UploadedFile)) (fileIds : List String) : List JsFileVal :=
  (fileIds.map (registryGet reg)).filter fun v => decide (v ≠ JsFileVal.null)

/-! ## Concrete fixtures used by counterexamples and witnesses -/

/-- A generation result for the fixtures. -/
def sampleGen : ManusGenerateResult :=
  { taskId := "task-1"
    taskUrl := "https://manus.im/task-1"
    outputUrl := "https://cdn/sessionFile/task-1/sandbox/out.pptx"
    filename := "out.pptx"
    pdfUrl := none
    pdfFilename := none
    outputSignature := some "https://cdn/sessionFile/task-1/sandbox/out.pptx" }

/-- A passing verdict with full confidence. -/
def passStep : StepOracle :=
  { maker := { gen := sampleGen, outputFileId := "file-1", pdfFileId := "pdf-1", now := 10 }
    checker := { verdict := { passed := true, confidence := 1, feedback := "ok", issues := [] }
                 duration := 5, now := 20 } }

/-- A failing verdict with zero confidence. -/
def failStep : StepOracle :=
  { maker := { gen := sampleGen, outputFileId := "file-2", pdfFileId := "pdf-2", now := 30 }
    checker := { verdict := { passed := false, confidence := 0, feedback := "needs work", issues := [] }
                 duration := 5, now := 40 } }

/-- A run input with one allowed iteration, auto-stop disabled and a
zero confidence threshold. -/
def c1Input : WorkflowInput :=
  { runId := "run-1"
    inputFiles := []
    makerPrompt := "make slides"
    checkerPrompt := "review slides"
    guidelines := ""
    sampleFiles := []
    maxIterations := 1
    confidenceThreshold := 0
    autoStopOnPass := false }

/-- The run of `c1Input` against a passing verdict: it stops because
`currentIteration ≥ maxIterations` while the auto-stop rule is disabled. -/
def c1Run : RunOutcome := runWorkflowWithCallbacks c1Input [passStep]

/-- The terminal state of `c1Run`. -/
def c1Final : WorkflowState :=
  match finalStateOf c1Run with
  | some s => s
  | none => createInitialState c1Input

/-- The state of `c1Run` after its maker step. -/
def c1Mid : WorkflowState := makerApply (createInitialState c1Input) passStep.maker

/-- A run input allowing three iterations with an unreachable
confidence threshold. -/
def c2Input : WorkflowInput :=
  { c1Input with runId := "run-2", maxIterations := 3, confidenceThreshold := 1, autoStopOnPass := true }

/-- Three failing iterations for `c2Input`. -/
def c2Oracle : List StepOracle := [failStep, failStep, failStep]

/-- A state in the middle of a run that carries checker feedback. -/
def c4FeedbackState : WorkflowState :=
  { createInitialState c2Input with
    currentIteration := 1
    feedback := some "fix the title"
    currentOutput := some (createOutputFile "file-1" "https://cdn/out.pptx" "out.pptx" 1 pptxMime 10) }

/-- A task answering `completed` but never attaching any output. -/
def runningTask : ManusTaskResponse :=
  { id := some "task-1", status := "running", output := none, outputs := none }

/-- A completed task listing the same URL both in `output[].content[]`
and in the legacy `outputs[]` array. -/
def c7TaskDup : ManusTaskResponse :=
  { id := some "task-1"
    status := "completed"
    output := some [{ content := some [{ fileUrl := some "https://cdn/a.pptx".data
                                         fileName := some "a.pptx", mimeType := none }] }]
    outputs := some [{ url := some "https://cdn/a.pptx".data, filename := some "a.pptx", mimeType := none }] }

/-- The same task with the legacy `outputs[]` array empty. -/
def c7TaskSingle : ManusTaskResponse :=
  { c7TaskDup with outputs := some [] }

/-- A one-file registry for the `getFiles` witness. -/
def c10Registry : List (String × UploadedFile) :=
  [("f1", createOutputFile "f1" "https://cdn/in.pdf" "in.pdf" 1 pptxMime 0)]

/-- A stored run record. -/
def c8Init : StoredWorkflow :=
  { request :=
      { fileIds := ["f1"]
        makerPrompt := "make slides"
        checkerPrompt := "review slides"
        guidelines := ""
        sampleFileIds := []
        config := { maxIterations := 3, confidenceThreshold := 1, autoStopOnPass := true } }
    status := .running
    shouldStop := false }

/-! ## Supporting lemmas -/

/-- A successful checker step keeps the iteration counter and appends
exactly one record carrying the current iteration number. -/
theorem checkerApply_proj {s : WorkflowState} {o : CheckerOracle} {s' : WorkflowState}
    (h : checkerApply s o = some s') :
    s'.currentIteration = s.currentIteration ∧
    s'.iterationHistory.map (·.iteration) =
      s.iterationHistory.map (·.iteration) ++ [s.currentIteration] := by
  unfold checkerApply at h
  cases hout : s.currentOutput with
  | none => rw [hout] at h; simp at h
  | some out =>
    rw [hout] at h
    simp only [Option.some.injEq] at h
    subst h
    simp

/-- After every checker step the iteration numbers recorded so far are
exactly `1, …, currentIteration`. -/
theorem iterationHistory_range (p : WorkflowInput) (s : WorkflowState)
    (h : PostCheckerReachable p s) :
    s.iterationHistory.map (·.iteration) = List.range' 1 s.currentIteration := by
  induction h with
  | first o s2 h2 =>
    obtain ⟨hci, hmap⟩ := checkerApply_proj h2
    rw [hci, hmap]
    have h1 : (makerApply (createInitialState p) o.maker).iterationHistory = [] := rfl
    have h2' : (makerApply (createInitialState p) o.maker).currentIteration = 1 := rfl
    rw [h1, h2']
    simp [List.range'_concat]
  | step s o s2 hs hcont h2 ih =>
    obtain ⟨hci, hmap⟩ := checkerApply_proj h2
    rw [hci, hmap]
    have h1 : (makerApply s o.maker).iterationHistory = s.iterationHistory := rfl
    have h2' : (makerApply s o.maker).currentIteration = s.currentIteration + 1 := rfl
    rw [h1, h2', ih, List.range'_concat]
    simp [Nat.add_comm]

/-! ## Claims -/

/-- C1: the claim asserts that a run stopping because the iteration
count reached `maxIterations`, with the auto-stop rule not firing
(auto-stop disabled), terminates with `success = false`.  The code
instead computes `success = passed && confidence >= threshold`
independently of the stop reason: this concrete one-iteration run stops
by the max-iterations rule with auto-stop disabled, yet its terminal
`success` is `true`. -/
theorem C1_counterexample :
    (finalStateOf c1Run).map (·.success) = some true ∧
    (finalStateOf c1Run).map (·.shouldStop) = some true ∧
    (finalStateOf c1Run).map (fun s => decide (s.maxIterations ≤ s.currentIteration)) = some true ∧
    (finalStateOf c1Run).map (·.autoStopOnPass) = some false := by
  decide

/-- C1 (amended): when a checker step completes with
`currentIteration ≥ maxIterations`, the run stops and its terminal
`success` equals `passed && confidence ≥ threshold` for the last
verdict — regardless of whether the auto-stop rule fired, so it can be
`true` even though the run only stopped because iterations ran out. -/
theorem C1_max_iterations_success (s : WorkflowState) (o : CheckerOracle) (s' : WorkflowState)
    (h : checkerApply s o = some s') (hmax : s.maxIterations ≤ s.currentIteration) :
    s'.shouldStop = true ∧
    s'.success = (o.verdict.passed && decide (s.confidenceThreshold ≤ o.verdict.confidence)) := by
  unfold checkerApply at h
  cases hout : s.currentOutput with
  | none => rw [hout] at h; simp at h
  | some out =>
    rw [hout] at h
    simp only [Option.some.injEq] at h
    subst h
    refine ⟨?_, rfl⟩
    simp [determineShouldStop, hmax]

/-- Witness for C1 (amended) on the concrete one-iteration run. -/
theorem C1_max_iterations_success_witness :
    c1Final.shouldStop = true ∧
    c1Final.success =
      (passStep.checker.verdict.passed &&
        decide (c1Mid.confidenceThreshold ≤ passStep.checker.verdict.confidence)) :=
  C1_max_iterations_success c1Mid passStep.checker c1Final rfl (by decide)

/-- C2: the claim asserts the engine consults the externally-supplied
cancellation predicate before each maker call and stops when it is
true.  `executeWorkflow` receives the predicate but never reads it: the
run is literally the same function for every predicate, and a run whose
predicate is constantly `true` still reaches its third maker call and
emits `iteration_start{3}`. -/
theorem C2_cancellation_never_consulted :
    (∀ (input : WorkflowInput) (oracle : List StepOracle) (p q : Nat → Bool),
        executeWorkflow input oracle p = executeWorkflow input oracle q) ∧
    WorkflowEvent.iterationStart 3 ∈
      outcomeEvents (executeWorkflow c2Input c2Oracle (fun _ => true)) :=
  ⟨fun _ _ _ _ => rfl, by decide⟩

/-- C3: after each checker step completes (including the terminal one)
the iteration history length equals `currentIteration`, and no two
records share an iteration number. -/
theorem C3_history_invariant (p : WorkflowInput) (s : WorkflowState)
    (h : PostCheckerReachable p s) :
    s.iterationHistory.length = s.currentIteration ∧
    (s.iterationHistory.map (·.iteration)).Nodup := by
  have hr := iterationHistory_range p s h
  constructor
  · have hl := congrArg List.length hr
    simpa using hl
  · rw [hr]
    exact List.nodup_range' 1 s.currentIteration

/-- Witness for C3 on the concrete one-iteration run. -/
theorem C3_history_invariant_witness :
    c1Final.iterationHistory.length = c1Final.currentIteration ∧
    (c1Final.iterationHistory.map (·.iteration)).Nodup :=
  C3_history_invariant c1Input c1Final (PostCheckerReachable.first passStep c1Final rfl)

/-- C4: iteration 1 (entered with `currentIteration = 0`) sends the
full generation prompt plus guidelines; every later iteration that
carries feedback sends only the feedback-wrapped prompt, which is
independent of the original generation prompt and guidelines. -/
theorem C4_prompt_policy :
    (∀ s : WorkflowState, s.currentIteration = 0 →
        makerPromptSent s = buildMakerPrompt s.makerPrompt s.guidelines) ∧
    (∀ (s : WorkflowState) (fb : String), 0 < s.currentIteration → s.feedback = some fb →
        fb ≠ "" →
        makerPromptSent s = buildFeedbackOnlyPrompt fb ∧
        ∀ p g, makerPromptSent { s with makerPrompt := p, guidelines := g } =
          buildFeedbackOnlyPrompt fb) := by
  constructor
  · intro s h
    simp [makerPromptSent, h]
  · intro s fb hpos hfb hne
    have hempty : fb.isEmpty = false := by
      cases he : fb.isEmpty
      · rfl
      · exact absurd ((String.isEmpty_iff fb).mp he) hne
    refine ⟨?_, fun p g => ?_⟩
    · simp [makerPromptSent, jsTruthyStr, hfb, hempty, hpos]
    · simp [makerPromptSent, jsTruthyStr, hfb, hempty, hpos]

/-- Witness for C4 on a first-iteration state and on a mid-run state
carrying feedback. -/
theorem C4_prompt_policy_witness :
    makerPromptSent (createInitialState c1Input) =
      buildMakerPrompt (createInitialState c1Input).makerPrompt
        (createInitialState c1Input).guidelines ∧
    makerPromptSent c4FeedbackState = buildFeedbackOnlyPrompt "fix the title" :=
  ⟨C4_prompt_policy.1 (createInitialState c1Input) rfl,
   (C4_prompt_policy.2 c4FeedbackState "fix the title" (by decide) rfl (by decide)).1⟩

/-- A sequence of polls that only ever observes a non-terminal task
leaves the loop polling, however long it is. -/
theorem waitLoop_running_replicate (n : Nat) : ∀ (r : Nat) (prev : Option Url),
    waitForTaskWithNewOutput (List.replicate n (.ok runningTask)) r prev = .stillPolling := by
  induction n with
  | zero => intro r prev; rfl
  | succ n ih =>
    intro r prev
    rw [List.replicate_succ]
    show waitForTaskWithNewOutput (List.replicate n (.ok runningTask)) 0 prev = .stillPolling
    exact ih 0 prev

/-- C5: the claim asserts the polling loop runs for at most a bounded
number of attempts and terminates even if the task never reaches a
terminal status.  The loop is `while (true)`: for every candidate bound
`N` there is a poll sequence of length `N` (a task that stays
`running`) after which the loop is still polling, so no attempt bound
exists. -/
theorem C5_counterexample :
    ¬ ∃ N : Nat, ∀ obs : List PollObs, N ≤ obs.length →
        waitForTaskWithNewOutput obs 0 none ≠ .stillPolling := by
  rintro ⟨N, hN⟩
  exact hN (List.replicate N (.ok runningTask)) (by simp)
    (waitLoop_running_replicate N 0 none)

/-- C5 (amended): the polling loop treats a `failed` status as a fatal
error and a `completed` status as success when no previous fingerprint
was supplied (with a previous fingerprint, an unchanged-signature
completion keeps polling); consecutive not-found lookups are bounded
(the fifth is fatal) while a non-terminal status polls again with the
404 counter reset — with no bound on the number of attempts, so the
loop never terminates on a task that stays non-terminal. -/
theorem C5_polling_semantics :
    (∀ (t : ManusTaskResponse) (rest : List PollObs) (r : Nat) (prev : Option Url),
        waitForTaskWithNewOutput (.ok { t with status := "failed" } :: rest) r prev =
          .taskFailed) ∧
    (∀ (t : ManusTaskResponse) (rest : List PollObs) (r : Nat),
        waitForTaskWithNewOutput (.ok { t with status := "completed" } :: rest) r none =
          .success { t with status := "completed" }) ∧
    (∀ (ps : Url) (rest : List PollObs) (r : Nat),
        waitForTaskWithNewOutput (.ok { runningTask with status := "completed" } :: rest) r
            (some ('a' :: ps)) =
          waitForTaskWithNewOutput rest 0 (some ('a' :: ps))) ∧
    (∀ (rest : List PollObs) (r : Nat) (prev : Option Url),
        waitForTaskWithNewOutput (.ok runningTask :: rest) r prev =
          waitForTaskWithNewOutput rest 0 prev) ∧
    (∀ (rest : List PollObs) (prev : Option Url),
        waitForTaskWithNewOutput (.notFound :: rest) 0 prev =
          waitForTaskWithNewOutput rest 1 prev) ∧
    (∀ (rest : List PollObs) (prev : Option Url),
        waitForTaskWithNewOutput (.notFound :: rest) 4 prev = .notFoundFatal) ∧
    (∀ (n r : Nat) (prev : Option Url),
        waitForTaskWithNewOutput (List.replicate n (.ok runningTask)) r prev = .stillPolling) :=
  ⟨fun _ _ _ _ => rfl, fun _ _ _ => rfl, fun _ _ _ => rfl, fun _ _ _ => rfl,
   fun _ _ => rfl, fun _ _ => rfl, fun n r prev => waitLoop_running_replicate n r prev⟩

/-- Dropping while a character is absent from a prefix stops exactly at
that character. -/
theorem dropWhile_ne_append (c : Char) (pre rest : List Char) (hpre : c ∉ pre) :
    (pre ++ c :: rest).dropWhile (· ≠ c) = c :: rest := by
  induction pre with
  | nil => simp [List.dropWhile_cons]
  | cons a as ih =>
    have ha : a ≠ c := fun h => hpre (h ▸ List.mem_cons_self a as)
    have hpre' : c ∉ as := fun h => hpre (List.mem_cons_of_mem a h)
    rw [List.cons_append, List.dropWhile_cons, if_pos (by simp [ha])]
    exact ih hpre'

/-- The greedy-regex extraction spans from the first `{` to the last
`}` of the text. -/
theorem extractBraced_first_to_last (pre mid post : List Char)
    (hpre : '{' ∉ pre) (hpost : '}' ∉ post) :
    extractBraced (pre ++ '{' :: (mid ++ '}' :: post)) = some ('{' :: (mid ++ ['}'])) := by
  have key1 : (pre ++ '{' :: (mid ++ '}' :: post)).dropWhile (· ≠ '{') =
      '{' :: (mid ++ '}' :: post) := dropWhile_ne_append '{' pre (mid ++ '}' :: post) hpre
  have hrev : ('{' :: (mid ++ '}' :: post)).reverse =
      post.reverse ++ '}' :: (mid.reverse ++ ['{']) := by simp
  have key2 : (post.reverse ++ '}' :: (mid.reverse ++ ['{'])).dropWhile (· ≠ '}') =
      '}' :: (mid.reverse ++ ['{']) :=
    dropWhile_ne_append '}' post.reverse (mid.reverse ++ ['{']) (by simpa using hpost)
  simp only [extractBraced]
  rw [key1, hrev, key2]
  simp

/-- Without an opening brace the regex does not match. -/
theorem extractBraced_no_brace (cs : List Char) (h : '{' ∉ cs) :
    extractBraced cs = none := by
  have hd : cs.dropWhile (· ≠ '{') = [] := by
    rw [List.dropWhile_eq_nil_iff]
    intro a ha
    simp only [decide_eq_true_eq]
    exact fun he => h (he ▸ ha)
  simp only [extractBraced]
  rw [hd]
  rfl

/-- The coerced confidence is always clamped into `[0, 1]`. -/
theorem clamp01 (q : Rat) : 0 ≤ clamp q 0 1 ∧ clamp q 0 1 ≤ 1 :=
  ⟨le_min (le_max_right q 0) zero_le_one, min_le_right _ _⟩

/-- Field-by-field coercion behaviour of `validateCheckerResult`. -/
theorem validate_props (fields : List (String × JValue)) :
    ((∃ b, jLookup fields "passed" = some (.bool b) ∧ (validateCheckerResult fields).passed = b) ∨
      ((validateCheckerResult fields).passed = false ∧
        ∀ b, jLookup fields "passed" ≠ some (.bool b))) ∧
    ((∃ q, jLookup fields "confidence" = some (.num q) ∧
        (validateCheckerResult fields).confidence = clamp q 0 1) ∨
      ((validateCheckerResult fields).confidence = 0 ∧
        ∀ q, jLookup fields "confidence" ≠ some (.num q))) ∧
    (0 ≤ (validateCheckerResult fields).confidence ∧
      (validateCheckerResult fields).confidence ≤ 1) ∧
    ((∃ s, jLookup fields "feedback" = some (.str s) ∧
        (validateCheckerResult fields).feedback = s) ∨
      ((validateCheckerResult fields).feedback = "No feedback provided" ∧
        ∀ s, jLookup fields "feedback" ≠ some (.str s))) ∧
    ((∃ xs, jLookup fields "issues" = some (.arr xs) ∧
        (validateCheckerResult fields).issues = stringElems xs) ∨
      ((validateCheckerResult fields).issues = [] ∧
        ∀ xs, jLookup fields "issues" ≠ some (.arr xs))) := by
  refine ⟨?_, ?_, ?_, ?_, ?_⟩
  · cases h : jLookup fields "passed" with
    | none => exact Or.inr ⟨by simp [validateCheckerResult, h], fun b => by simp [h]⟩
    | some v =>
      cases v with
      | bool b => exact Or.inl ⟨b, rfl, by simp [validateCheckerResult, h]⟩
      | null => exact Or.inr ⟨by simp [validateCheckerResult, h], fun b => by simp [h]⟩
      | num q => exact Or.inr ⟨by simp [validateCheckerResult, h], fun b => by simp [h]⟩
      | str s => exact Or.inr ⟨by simp [validateCheckerResult, h], fun b => by simp [h]⟩
      | arr xs => exact Or.inr ⟨by simp [validateCheckerResult, h], fun b => by simp [h]⟩
      | obj fs => exact Or.inr ⟨by simp [validateCheckerResult, h], fun b => by simp [h]⟩
  · cases h : jLookup fields "confidence" with
    | none => exact Or.inr ⟨by simp [validateCheckerResult, h], fun q => by simp [h]⟩
    | some v =>
      cases v with
      | num q => exact Or.inl ⟨q, rfl, by simp [validateCheckerResult, h]⟩
      | null => exact Or.inr ⟨by simp [validateCheckerResult, h], fun q => by simp [h]⟩
      | bool b => exact Or.inr ⟨by simp [validateCheckerResult, h], fun q => by simp [h]⟩
      | str s => exact Or.inr ⟨by simp [validateCheckerResult, h], fun q => by simp [h]⟩
      | arr xs => exact Or.inr ⟨by simp [validateCheckerResult, h], fun q => by simp [h]⟩
      | obj fs => exact Or.inr ⟨by simp [validateCheckerResult, h], fun q => by simp [h]⟩
  · cases h : jLookup fields "confidence" with
    | none => simp [validateCheckerResult, h]
    | some v =>
      cases v with
      | num q =>
        have hq := clamp01 q
        simpa [validateCheckerResult, h] using hq
      | null => simp [validateCheckerResult, h]
      | bool b => simp [validateCheckerResult, h]
      | str s => simp [validateCheckerResult, h]
      | arr xs => simp [validateCheckerResult, h]
      | obj fs => simp [validateCheckerResult, h]
  · cases h : jLookup fields "feedback" with
    | none => exact Or.inr ⟨by simp [validateCheckerResult, h], fun s => by simp [h]⟩
    | some v =>
      cases v with
      | str s => exact Or.inl ⟨s, rfl, by simp [validateCheckerResult, h]⟩
      | null => exact Or.inr ⟨by simp [validateCheckerResult, h], fun s => by simp [h]⟩
      | bool b => exact Or.inr ⟨by simp [validateCheckerResult, h], fun s => by simp [h]⟩
      | num q => exact Or.inr ⟨by simp [validateCheckerResult, h], fun s => by simp [h]⟩
      | arr xs => exact Or.inr ⟨by simp [validateCheckerResult, h], fun s => by simp [h]⟩
      | obj fs => exact Or.inr ⟨by simp [validateCheckerResult, h], fun s => by simp [h]⟩
  · cases h : jLookup fields "issues" with
    | none => exact Or.inr ⟨by simp [validateCheckerResult, h], fun xs => by simp [h]⟩
    | some v =>
      cases v with
      | arr xs => exact Or.inl ⟨xs, rfl, by simp [validateCheckerResult, h]⟩
      | null => exact Or.inr ⟨by simp [validateCheckerResult, h], fun xs => by simp [h]⟩
      | bool b => exact Or.inr ⟨by simp [validateCheckerResult, h], fun xs => by simp [h]⟩
      | num q => exact Or.inr ⟨by simp [validateCheckerResult, h], fun xs => by simp [h]⟩
      | str s => exact Or.inr ⟨by simp [validateCheckerResult, h], fun xs => by simp [h]⟩
      | obj fs => exact Or.inr ⟨by simp [validateCheckerResult, h], fun xs => by simp [h]⟩

/-- C6: the claim asserts the parser extracts the *first balanced*
`{...}` substring.  The code's regex `/\{[\s\S]*\}/` is greedy: on the
text `x{a}y{b}` it matches `{a}y{b}` (first `{` through last `}`),
while the first balanced substring is `{a}`. -/
theorem C6_counterexample :
    extractBraced "x{a}y{b}".data = some "{a}y{b}".data ∧
    firstBalancedBraced "x{a}y{b}".data = some "{a}".data ∧
    some "{a}y{b}".data ≠ some "{a}".data := by
  refine ⟨by decide, by decide, by decide⟩

/-- C6 (amended): the parser extracts the substring spanning the first
`{` through the last `}` of the response text (no match without one),
and the field coercion applies the claimed defaults: `passed` is the
boolean field or `false`, `confidence` is the numeric field clamped
into `[0,1]` or `0`, `feedback` is the string field or the fixed
placeholder, `issues` keeps exactly the string elements of the array
field or defaults to empty. -/
theorem C6_parse_and_coerce :
    (∀ (pre mid post : List Char), '{' ∉ pre → '}' ∉ post →
        extractBraced (pre ++ '{' :: (mid ++ '}' :: post)) = some ('{' :: (mid ++ ['}']))) ∧
    (∀ cs : List Char, '{' ∉ cs → extractBraced cs = none) ∧
    (∀ fields : List (String × JValue),
      ((∃ b, jLookup fields "passed" = some (.bool b) ∧
          (validateCheckerResult fields).passed = b) ∨
        ((validateCheckerResult fields).passed = false ∧
          ∀ b, jLookup fields "passed" ≠ some (.bool b))) ∧
      ((∃ q, jLookup fields "confidence" = some (.num q) ∧
          (validateCheckerResult fields).confidence = clamp q 0 1) ∨
        ((validateCheckerResult fields).confidence = 0 ∧
          ∀ q, jLookup fields "confidence" ≠ some (.num q))) ∧
      (0 ≤ (validateCheckerResult fields).confidence ∧
        (validateCheckerResult fields).confidence ≤ 1) ∧
      ((∃ s, jLookup fields "feedback" = some (.str s) ∧
          (validateCheckerResult fields).feedback = s) ∨
        ((validateCheckerResult fields).feedback = "No feedback provided" ∧
          ∀ s, jLookup fields "feedback" ≠ some (.str s))) ∧
      ((∃ xs, jLookup fields "issues" = some (.arr xs) ∧
          (validateCheckerResult fields).issues = stringElems xs) ∨
        ((validateCheckerResult fields).issues = [] ∧
          ∀ xs, jLookup fields "issues" ≠ some (.arr xs)))) :=
  ⟨extractBraced_first_to_last, extractBraced_no_brace, validate_props⟩

/-- Witness for C6 (amended): a concrete extraction, a concrete
no-match text, and the clamped confidence of a concrete out-of-range
verdict. -/
theorem C6_parse_and_coerce_witness :
    extractBraced (['x'] ++ '{' :: (['o', 'k'] ++ '}' :: ['t'])) =
      some ('{' :: (['o', 'k'] ++ ['}'])) ∧
    extractBraced ['n', 'o'] = none ∧
    (0 ≤ (validateCheckerResult [("confidence", JValue.num 2)]).confidence ∧
      (validateCheckerResult [("confidence", JValue.num 2)]).confidence ≤ 1) :=
  ⟨C6_parse_and_coerce.1 ['x'] ['o', 'k'] ['t'] (by decide) (by decide),
   C6_parse_and_coerce.2.1 ['n', 'o'] (by decide),
   (C6_parse_and_coerce.2.2 [("confidence", JValue.num 2)]).2.2.1⟩

/-- Splitting at an un-contained separator is unambiguous. -/
theorem append_pipe_cancel (a : List Char) : ∀ (b : List Char) (r1 r2 : List Char),
    '|' ∉ a → '|' ∉ b → a ++ '|' :: r1 = b ++ '|' :: r2 → a = b ∧ r1 = r2 := by
  induction a with
  | nil =>
    intro b r1 r2 _ hb h
    cases b with
    | nil => simpa using h
    | cons x xs =>
      simp only [List.nil_append, List.cons_append, List.cons.injEq] at h
      exact absurd (h.1 ▸ List.mem_cons_self x xs) hb
  | cons x xs ih =>
    intro b r1 r2 ha hb h
    cases b with
    | nil =>
      simp only [List.nil_append, List.cons_append, List.cons.injEq] at h
      exact absurd (h.1.symm ▸ List.mem_cons_self x xs) ha
    | cons y ys =>
      simp only [List.cons_append, List.cons.injEq] at h
      have ha' : '|' ∉ xs := fun hm => ha (List.mem_cons_of_mem x hm)
      have hb' : '|' ∉ ys := fun hm => hb (List.mem_cons_of_mem y hm)
      obtain ⟨he, hr⟩ := ih ys r1 r2 ha' hb' h.2
      exact ⟨by rw [h.1, he], hr⟩

/-- `join('|')` is injective on lists of non-empty URLs that do not
contain the separator. -/
theorem joinPipe_inj (l1 : List Url) : ∀ l2 : List Url,
    (∀ u ∈ l1, u ≠ [] ∧ '|' ∉ u) → (∀ u ∈ l2, u ≠ [] ∧ '|' ∉ u) →
    joinPipe l1 = joinPipe l2 → l1 = l2 := by
  induction l1 with
  | nil =>
    intro l2 _ h2 h
    cases l2 with
    | nil => rfl
    | cons w ws =>
      cases ws with
      | nil =>
        have hw : ([] : Url) = w := by simpa [joinPipe] using h
        exact absurd hw.symm (h2 w (List.mem_cons_self w [])).1
      | cons w2 ws2 => simp [joinPipe] at h
  | cons u rest ih =>
    intro l2 h1 h2 h
    cases rest with
    | nil =>
      cases l2 with
      | nil =>
        have hu : u = ([] : Url) := by simpa [joinPipe] using h
        exact absurd hu (h1 u (List.mem_cons_self u [])).1
      | cons w ws =>
        cases ws with
        | nil => simp [joinPipe] at h; rw [h]
        | cons w2 ws2 =>
          exfalso
          have hpipe : '|' ∈ joinPipe [u] := by
            rw [h]
            show '|' ∈ w ++ '|' :: joinPipe (w2 :: ws2)
            exact List.mem_append_right w (List.mem_cons_self _ _)
          exact (h1 u (List.mem_cons_self u [])).2 (by simpa [joinPipe] using hpipe)
    | cons v vs =>
      cases l2 with
      | nil => simp [joinPipe] at h
      | cons w ws =>
        cases ws with
        | nil =>
          exfalso
          have hpipe : '|' ∈ joinPipe [w] := by
            rw [← h]
            show '|' ∈ u ++ '|' :: joinPipe (v :: vs)
            exact List.mem_append_right u (List.mem_cons_self _ _)
          exact (h2 w (List.mem_cons_self w [])).2 (by simpa [joinPipe] using hpipe)
        | cons w2 ws2 =>
          have hu := h1 u (List.mem_cons_self u _)
          have hw := h2 w (List.mem_cons_self w _)
          have h' : u ++ '|' :: joinPipe (v :: vs) = w ++ '|' :: joinPipe (w2 :: ws2) := by
            simpa [joinPipe] using h
          obtain ⟨he, hr⟩ := append_pipe_cancel u w _ _ hu.2 hw.2 h'
          have hrest := ih (w2 :: ws2)
            (fun x hx => h1 x (List.mem_cons_of_mem u hx))
            (fun x hx => h2 x (List.mem_cons_of_mem w hx)) hr
          rw [he, hrest]

/-- Sorting is invariant under permutation of the input. -/
theorem mergeSort_congr_perm (l1 l2 : List Url) (h : l1.Perm l2) :
    l1.mergeSort = l2.mergeSort := by
  haveI : IsAntisymm Url (· ≤ ·) := ⟨fun a b h1 h2 => le_antisymm h1 h2⟩
  haveI : IsTotal Url (· ≤ ·) := ⟨fun a b => le_total a b⟩
  exact List.eq_of_perm_of_sorted
    ((List.mergeSort_perm l1 _).trans (h.trans (List.mergeSort_perm l2 _).symm))
    (List.sorted_mergeSort' l1) (List.sorted_mergeSort' l2)

/-- Only truthy (non-empty) URLs are collected for the fingerprint. -/
theorem collect_elem_ne_nil (t : ManusTaskResponse) :
    ∀ u ∈ collectSignatureUrls t, u ≠ [] := by
  intro u hu
  unfold collectSignatureUrls at hu
  rcases List.mem_append.mp hu with hm | hm
  · obtain ⟨item, _, hc⟩ := List.mem_flatMap.mp hm
    obtain ⟨c, _, hf⟩ := List.mem_filterMap.mp hc
    cases hurl : c.fileUrl with
    | none => rw [hurl] at hf; simp at hf
    | some w =>
      rw [hurl] at hf
      by_cases hw : w.isEmpty
      · simp [hw] at hf
      · simp only [hw, if_neg, Bool.false_eq_true, not_false_eq_true, if_false,
          Option.some.injEq] at hf
        rw [← hf]
        exact fun hnil => hw (by simp [hnil])
  · obtain ⟨o, _, hf⟩ := List.mem_filterMap.mp hm
    cases hurl : o.url with
    | none => rw [hurl] at hf; simp at hf
    | some w =>
      rw [hurl] at hf
      by_cases hw : w.isEmpty
      · simp [hw] at hf
      · simp only [hw, if_neg, Bool.false_eq_true, not_false_eq_true, if_false,
          Option.some.injEq] at hf
        rw [← hf]
        exact fun hnil => hw (by simp [hnil])

/-- C7: the claim asserts the fingerprint is a function of the *set* of
output URLs, with differing sets giving differing fingerprints.  The
code concatenates the sorted URL *list*: a task listing the same URL in
both `output[].content[]` and the legacy `outputs[]` has the same URL
set as one listing it once, yet a different fingerprint. -/
theorem C7_counterexample :
    (collectSignatureUrls c7TaskDup).toFinset = (collectSignatureUrls c7TaskSingle).toFinset ∧
    buildOutputSignature c7TaskDup ≠ buildOutputSignature c7TaskSingle := by
  constructor
  · decide
  · have e1 : collectSignatureUrls c7TaskDup =
        ["https://cdn/a.pptx".data, "https://cdn/a.pptx".data] := by decide
    have e2 : collectSignatureUrls c7TaskSingle = ["https://cdn/a.pptx".data] := by decide
    have m1 : (["https://cdn/a.pptx".data, "https://cdn/a.pptx".data] : List Url).mergeSort =
        ["https://cdn/a.pptx".data, "https://cdn/a.pptx".data] :=
      List.mergeSort_eq_self (by decide)
    have m2 : (["https://cdn/a.pptx".data] : List Url).mergeSort =
        ["https://cdn/a.pptx".data] :=
      List.mergeSort_eq_self (by decide)
    simp only [buildOutputSignature, signatureOfUrls, e1, e2, m1, m2]
    decide

/-- C7 (amended): provided no collected URL contains the separator
`|`, two task states have equal fingerprints exactly when their
collected URL *multisets* coincide — so the fingerprint is
poll-order-independent, but URL multiplicity (not just the set)
distinguishes fingerprints. -/
theorem C7_fingerprint_multiset (t1 t2 : ManusTaskResponse)
    (h1 : ∀ u ∈ collectSignatureUrls t1, '|' ∉ u)
    (h2 : ∀ u ∈ collectSignatureUrls t2, '|' ∉ u) :
    buildOutputSignature t1 = buildOutputSignature t2 ↔
      (collectSignatureUrls t1).Perm (collectSignatureUrls t2) := by
  by_cases hc1 : collectSignatureUrls t1 = []
  · by_cases hc2 : collectSignatureUrls t2 = []
    · simp [buildOutputSignature, hc1, hc2]
    · simp [buildOutputSignature, hc1, hc2, List.isEmpty_iff]
  · by_cases hc2 : collectSignatureUrls t2 = []
    · simp [buildOutputSignature, hc1, hc2, List.isEmpty_iff]
    · have he1 : (collectSignatureUrls t1).isEmpty = false := by
        simpa [List.isEmpty_iff] using hc1
      have he2 : (collectSignatureUrls t2).isEmpty = false := by
        simpa [List.isEmpty_iff] using hc2
      simp only [buildOutputSignature, he1, he2, Bool.false_eq_true, if_false,
        Option.some.injEq]
      constructor
      · intro h
        have hs1 : ∀ u ∈ (collectSignatureUrls t1).mergeSort, u ≠ [] ∧ '|' ∉ u := by
          intro u hu
          have hm := ((List.mergeSort_perm (collectSignatureUrls t1) _).mem_iff).mp hu
          exact ⟨collect_elem_ne_nil t1 u hm, h1 u hm⟩
        have hs2 : ∀ u ∈ (collectSignatureUrls t2).mergeSort, u ≠ [] ∧ '|' ∉ u := by
          intro u hu
          have hm := ((List.mergeSort_perm (collectSignatureUrls t2) _).mem_iff).mp hu
          exact ⟨collect_elem_ne_nil t2 u hm, h2 u hm⟩
        have heq := joinPipe_inj _ _ hs1 hs2 h
        have p2 := List.mergeSort_perm (collectSignatureUrls t2) (fun a b => decide (a ≤ b))
        rw [← heq] at p2
        exact (List.mergeSort_perm _ _).symm.trans p2
      · intro h
        unfold signatureOfUrls
        rw [mergeSort_congr_perm _ _ h]

/-- Witness for C7 (amended) on the concrete duplicate-URL tasks. -/
theorem C7_fingerprint_multiset_witness :
    buildOutputSignature c7TaskDup = buildOutputSignature c7TaskSingle ↔
      (collectSignatureUrls c7TaskDup).Perm (collectSignatureUrls c7TaskSingle) :=
  C7_fingerprint_multiset c7TaskDup c7TaskSingle (by decide) (by decide)

/-- Route operations on an existing record keep it existing and never
clear the stop flag. -/
theorem applyOps_some (ops : List RegistryOp) : ∀ w0 : StoredWorkflow,
    ∃ w1, applyOps (some w0) ops = some w1 ∧ (w0.shouldStop = true → w1.shouldStop = true) := by
  induction ops with
  | nil => intro w0; exact ⟨w0, rfl, fun h => h⟩
  | cons op rest ih =>
    intro w0
    cases op with
    | stop =>
      obtain ⟨w1, he, hf⟩ := ih (stopRouteUpdate w0)
      exact ⟨w1, he, fun _ => hf rfl⟩
    | streamComplete =>
      obtain ⟨w1, he, hf⟩ := ih (streamCompleteUpdate w0)
      exact ⟨w1, he, fun h => hf h⟩
    | streamFail =>
      obtain ⟨w1, he, hf⟩ := ih (streamFailUpdate w0)
      exact ⟨w1, he, fun h => hf h⟩

/-- Updates on an unknown run are no-ops. -/
theorem applyOps_none (ops : List RegistryOp) : applyOps none ops = none := by
  induction ops with
  | nil => rfl
  | cons op rest ih => exact ih

/-- C8: the claim asserts a run's status transitions to exactly one
terminal value, never overwritten by a different terminal value.  The
stop route writes the terminal `stopped`, and the stream teardown later
unconditionally writes the terminal `completed` over it. -/
theorem C8_counterexample :
    (applyOps (some c8Init) [.stop]).map (fun w => w.status) = some .stopped ∧
    RunStatus.stopped.isTerminal = true ∧
    (applyOps (some c8Init) [.stop, .streamComplete]).map (fun w => w.status) =
      some .completed ∧
    RunStatus.completed.isTerminal = true ∧
    RunStatus.stopped ≠ RunStatus.completed := by
  decide

/-- C8 (amended): the stop flag, once set, survives every later route
operation and setting it is idempotent; but the stream teardown writes
`completed`/`failed` unconditionally, overwriting an earlier terminal
`stopped`; updates on unknown runs are no-ops. -/
theorem C8_flag_and_overwrite (w0 : StoredWorkflow) (ops : List RegistryOp)
    (h : w0.shouldStop = true) :
    (∃ w1, applyOps (some w0) ops = some w1 ∧ w1.shouldStop = true) ∧
    stopRouteUpdate (stopRouteUpdate w0) = stopRouteUpdate w0 ∧
    (streamCompleteUpdate (stopRouteUpdate w0)).status = .completed ∧
    (streamFailUpdate (stopRouteUpdate w0)).status = .failed ∧
    applyOps none ops = none := by
  obtain ⟨w1, he, hf⟩ := applyOps_some ops w0
  exact ⟨⟨w1, he, hf h⟩, rfl, rfl, rfl, applyOps_none ops⟩

/-- Witness for C8 (amended) on a freshly stopped record followed by
the stream teardown. -/
theorem C8_flag_and_overwrite_witness :
    (∃ w1, applyOps (some (stopRouteUpdate c8Init)) [.streamComplete] = some w1 ∧
      w1.shouldStop = true) ∧
    stopRouteUpdate (stopRouteUpdate (stopRouteUpdate c8Init)) =
      stopRouteUpdate (stopRouteUpdate c8Init) ∧
    (streamCompleteUpdate (stopRouteUpdate (stopRouteUpdate c8Init))).status = .completed ∧
    (streamFailUpdate (stopRouteUpdate (stopRouteUpdate c8Init))).status = .failed ∧
    applyOps none [.streamComplete] = none :=
  C8_flag_and_overwrite (stopRouteUpdate c8Init) [.streamComplete] rfl

/-- C9: the run-submission endpoint rejects with a 400-equivalent error
exactly when the input file id list is empty or either prompt trims to
the empty string, and otherwise answers `{ runId, status: 'started' }`
after storing the run record as `running` with the stop flag clear. -/
theorem C9_submission_validation (body : WorkflowStartRequest) (rid : String)
    (store : List (String × StoredWorkflow)) :
    ((body.fileIds = [] ∨ trimIsEmpty body.makerPrompt = true ∨
        trimIsEmpty body.checkerPrompt = true) →
      ∃ msg, startPost body rid store = (.badRequest msg, store)) ∧
    (body.fileIds ≠ [] → trimIsEmpty body.makerPrompt = false →
      trimIsEmpty body.checkerPrompt = false →
      startPost body rid store =
        (.ok rid "started",
          (rid, { request := body, status := .running, shouldStop := false }) :: store)) := by
  constructor
  · rintro (hf | hm | hc)
    · exact ⟨"No input files provided", by simp [startPost, hf]⟩
    · by_cases hf : body.fileIds.isEmpty
      · exact ⟨"No input files provided", by simp [startPost, hf]⟩
      · exact ⟨"Maker prompt is required", by simp [startPost, hf, hm]⟩
    · by_cases hf : body.fileIds.isEmpty
      · exact ⟨"No input files provided", by simp [startPost, hf]⟩
      · by_cases hm : trimIsEmpty body.makerPrompt
        · exact ⟨"Maker prompt is required", by simp [startPost, hf, hm]⟩
        · exact ⟨"Checker prompt is required", by simp [startPost, hf, hm, hc]⟩
  · intro h1 h2 h3
    have hf : body.fileIds.isEmpty = false := by simp [List.isEmpty_iff, h1]
    simp [startPost, hf, h2, h3]

/-- Witness for C9: a whitespace-only maker prompt is rejected; a valid
body is stored and acknowledged. -/
theorem C9_submission_validation_witness :
    (∃ msg, startPost { c8Init.request with makerPrompt := "  " } "r1" [] =
      (.badRequest msg, [])) ∧
    startPost c8Init.request "r1" [] =
      (.ok "r1" "started",
        [("r1", { request := c8Init.request, status := .running, shouldStop := false })]) :=
  ⟨(C9_submission_validation { c8Init.request with makerPrompt := "  " } "r1" []).1
      (Or.inr (Or.inl (by decide))),
   (C9_submission_validation c8Init.request "r1" []).2 (by decide) (by decide) (by decide)⟩

/-- The registry's `get` never yields the JavaScript `null`. -/
theorem registryGet_ne_null (reg : List (String × UploadedFile)) (fid : String) :
    registryGet reg fid ≠ .null := by
  unfold registryGet
  cases h : reg.find? fun p => p.1 = fid <;> simp

/-- C10: `getFiles` returns exactly one entry per requested id — the
`!== null` filter keeps the `undefined` produced for unregistered ids —
so the result is the plain image of the id list, its length matches the
input, and unknown ids surface as `undefined` rather than being
dropped. -/
theorem C10_getFiles_keeps_unknown_ids (reg : List (String × UploadedFile))
    (fileIds : List String) :
    getFiles reg fileIds = fileIds.map (registryGet reg) ∧
    (getFiles reg fileIds).length = fileIds.length ∧
    ∀ fid, (∀ p ∈ reg, p.1 ≠ fid) → registryGet reg fid = .jsUndefined := by
  have hmap : getFiles reg fileIds = fileIds.map (registryGet reg) := by
    unfold getFiles
    apply List.filter_eq_self.mpr
    intro v hv
    obtain ⟨fid, _, hf⟩ := List.mem_map.mp hv
    simp [← hf, registryGet_ne_null]
  refine ⟨hmap, by rw [hmap]; simp, ?_⟩
  intro fid hfid
  unfold registryGet
  have hnone : (reg.find? fun p => p.1 = fid) = none := by
    apply List.find?_eq_none.mpr
    intro p hp
    simp [hfid p hp]
  rw [hnone]

/-- Witness for C10 on a registry holding one file and a lookup of one
known and one unknown id. -/
theorem C10_getFiles_keeps_unknown_ids_witness :
    getFiles c10Registry ["f1", "missing"] = ["f1", "missing"].map (registryGet c10Registry) ∧
    (getFiles c10Registry ["f1", "missing"]).length = (["f1", "missing"] : List String).length ∧
    registryGet c10Registry "missing" = .jsUndefined :=
  ⟨(C10_getFiles_keeps_unknown_ids c10Registry ["f1", "missing"]).1,
   (C10_getFiles_keeps_unknown_ids c10Registry ["f1", "missing"]).2.1,
   (C10_getFiles_keeps_unknown_ids c10Registry ["f1", "missing"]).2.2 "missing" (by decide)⟩

end ProcessGen
